import Mathlib

/-!
Verification development for the USB laser controller's communication and
state-reconciliation engine (`src/components/LaserController.tsx`).

The TypeScript source is shallowly embedded: React `useState` cells become
fields of an explicit state record, event handlers and message processors
become pure state-transition functions, protocol text is modelled as
`List Char`, and the platform boundary (Web Serial reads/writes, JSON.parse,
timers) is made explicit as function inputs/outputs.
-/

namespace LaserCtrl

/-! ### Text primitives

Protocol text is modelled as `List Char`.  `isWS` covers the whitespace
characters relevant to the device protocol (JS `trim` / regex `\s` on the
ASCII lines the firmware emits). -/

def isWS (c : Char) : Bool :=
  c == ' ' || c == '\t' || c == '\n' || c == '\r'

/-- JS `String.prototype.trim`: strip whitespace from both ends. -/
def trimChars (l : List Char) : List Char :=
  ((l.dropWhile isWS).reverse.dropWhile isWS).reverse

/-- JS `buffer.split('\n')`: split into segments between newline characters.
Always returns at least one (possibly empty) segment. -/
def splitNl : List Char → List (List Char)
  | [] => [[]]
  | c :: cs =>
      if c = '\n' then [] :: splitNl cs
      else (c :: (splitNl cs).headD []) :: (splitNl cs).tail

theorem splitNl_ne_nil (l : List Char) : splitNl l ≠ [] := by
  cases l with
  | nil => simp [splitNl]
  | cons c cs => simp only [splitNl]; split <;> simp

/-- A newline-free string splits into the single segment itself. -/
theorem splitNl_eq_single (l : List Char) (h : '\n' ∉ l) : splitNl l = [l] := by
  induction l with
  | nil => rfl
  | cons c cs ih =>
      simp only [List.mem_cons, not_or] at h
      simp [splitNl, Ne.symm h.1, ih h.2]

/-- Every segment produced by `splitNl` is newline-free. -/
theorem splitNl_mem_no_newline (l : List Char) (s : List Char)
    (hs : s ∈ splitNl l) : '\n' ∉ s := by
  induction l generalizing s with
  | nil =>
      simp only [splitNl, List.mem_singleton] at hs
      subst hs; simp
  | cons c cs ih =>
      rcases hsp : splitNl cs with _ | ⟨b, bs⟩
      · exact absurd hsp (splitNl_ne_nil cs)
      · simp only [splitNl, hsp] at hs
        by_cases hc : c = '\n'
        · rw [if_pos hc] at hs
          rcases List.mem_cons.mp hs with h | h
          · subst h; simp
          · exact ih s (hsp ▸ h)
        · rw [if_neg hc] at hs
          simp only [List.headD_cons, List.tail_cons] at hs
          rcases List.mem_cons.mp hs with h | h
          · subst h
            intro hmem
            rcases List.mem_cons.mp hmem with h1 | h1
            · exact hc h1.symm
            · exact ih b (hsp ▸ List.mem_cons_self b bs) h1
          · exact ih s (hsp ▸ List.mem_cons_of_mem b h)

/-- Merge the last segment of the first split with the first segment of the
second split: the shape of `splitNl` on an append. -/
def joinLast : List (List Char) → List (List Char) → List (List Char)
  | [], bs => bs
  | [a], [] => [a]
  | [a], b :: bs => (a ++ b) :: bs
  | a :: a2 :: as, bs => a :: joinLast (a2 :: as) bs

theorem splitNl_append (xs ys : List Char) :
    splitNl (xs ++ ys) = joinLast (splitNl xs) (splitNl ys) := by
  induction xs with
  | nil =>
      rcases h : splitNl ys with _ | ⟨b, bs⟩
      · exact absurd h (splitNl_ne_nil ys)
      · simp [splitNl, joinLast, h]
  | cons c cs ih =>
      rcases hr : splitNl cs with _ | ⟨a, r'⟩
      · exact absurd hr (splitNl_ne_nil cs)
      · rcases hys : splitNl ys with _ | ⟨b, bs⟩
        · exact absurd hys (splitNl_ne_nil ys)
        · rw [hr, hys] at ih
          by_cases hc : c = '\n'
          · rw [List.cons_append]
            simp only [splitNl, if_pos hc, ih, hr, hys]
            rcases r' with _ | ⟨a2, r''⟩ <;> simp [joinLast]
          · rw [List.cons_append]
            simp only [splitNl, if_neg hc, ih, hr, hys]
            rcases r' with _ | ⟨a2, r''⟩ <;> simp [joinLast]

/-! ### Generic list helpers -/

theorem getLastD_append_right {α : Type} (A B : List α) (hB : B ≠ []) (d : α) :
    (A ++ B).getLastD d = B.getLastD d := by
  rw [List.getLastD_eq_getLast? _ _, List.getLastD_eq_getLast? _ _, List.getLast?_append]
  rcases hb : B.getLast? with _ | x
  · exact absurd (List.getLast?_isSome.mpr hB) (by rw [hb]; simp)
  · rfl

theorem getLastD_irrel {α : Type} (B : List α) (hB : B ≠ []) (d d' : α) :
    B.getLastD d = B.getLastD d' := by
  rw [List.getLastD_eq_getLast? _ _, List.getLastD_eq_getLast? _ _]
  rcases hb : B.getLast? with _ | x
  · exact absurd (List.getLast?_isSome.mpr hB) (by rw [hb]; simp)
  · rfl

theorem getLastD_mem {α : Type} (B : List α) (hB : B ≠ []) (d : α) :
    B.getLastD d ∈ B := by
  rw [List.getLastD_eq_getLast? _ _, List.getLast?_eq_getLast B hB]
  exact List.getLast_mem hB

theorem joinLast_ne_nil (P Q : List (List Char)) (hQ : Q ≠ []) :
    joinLast P Q ≠ [] := by
  rcases P with _ | ⟨a, P'⟩
  · simpa [joinLast]
  · rcases P' with _ | ⟨a2, P''⟩
    · rcases Q with _ | ⟨b, bs⟩
      · exact absurd rfl hQ
      · simp [joinLast]
    · simp [joinLast]

theorem joinLast_decomp (P Q : List (List Char)) (hP : P ≠ []) :
    joinLast P Q = P.dropLast ++ joinLast [P.getLastD []] Q := by
  induction P with
  | nil => exact absurd rfl hP
  | cons a P' ih =>
      rcases P' with _ | ⟨p, ps⟩
      · simp [joinLast]
      · have hP' : (p :: ps : List (List Char)) ≠ [] := by simp
        rw [show joinLast (a :: p :: ps) Q = a :: joinLast (p :: ps) Q from by
          simp [joinLast], ih hP']
        simp [List.getLastD_cons]

/-! ### Frame Reader (`startReading`, source lines 250–291)

One iteration of the read-loop body on a received chunk performs
`buffer += decode(value); const lines = buffer.split('\n');
buffer = lines.pop() || ''`, then each remaining line is trimmed and, when
nonempty, forwarded to `processReceivedData`.  `readStep` returns the new
buffer together with the forwarded lines; `runReader` is the loop over a
finite sequence of received chunks. -/

/-- Lines forwarded from a list of split segments: trimmed, empties dropped
(`const trimmed = line.trim(); if (trimmed) ...`). -/
def emitLines (segs : List (List Char)) : List (List Char) :=
  (segs.map trimChars).filter (fun l => !l.isEmpty)

def readStep (buffer chunk : List Char) : List Char × List (List Char) :=
  ((splitNl (buffer ++ chunk)).getLastD [],
   emitLines (splitNl (buffer ++ chunk)).dropLast)

def runReader (buffer : List Char) : List (List Char) → List Char × List (List Char)
  | [] => (buffer, [])
  | c :: cs =>
      ((runReader (readStep buffer c).1 cs).1,
       (readStep buffer c).2 ++ (runReader (readStep buffer c).1 cs).2)

theorem emitLines_append (A B : List (List Char)) :
    emitLines (A ++ B) = emitLines A ++ emitLines B := by
  simp [emitLines]

/-- Invariant of the read loop: after any chunk sequence, the forwarded lines
are exactly the trimmed nonempty segments strictly before the last newline of
everything received so far, and the buffer holds the trailing segment. -/
theorem runReader_spec (chunks : List (List Char)) (buffer : List Char)
    (hb : '\n' ∉ buffer) :
    runReader buffer chunks =
      ((splitNl (buffer ++ chunks.flatten)).getLastD [],
       emitLines (splitNl (buffer ++ chunks.flatten)).dropLast) := by
  induction chunks generalizing buffer with
  | nil =>
      simp [runReader, splitNl_eq_single buffer hb, emitLines]
  | cons c cs ih =>
      have hPne : splitNl (buffer ++ c) ≠ [] := splitNl_ne_nil _
      have hb1 : '\n' ∉ (splitNl (buffer ++ c)).getLastD [] :=
        splitNl_mem_no_newline _ _ (getLastD_mem _ hPne [])
      have hQne : splitNl cs.flatten ≠ [] := splitNl_ne_nil _
      have hdec : splitNl (buffer ++ (c :: cs).flatten) =
          (splitNl (buffer ++ c)).dropLast ++
            splitNl ((splitNl (buffer ++ c)).getLastD [] ++ cs.flatten) := by
        rw [List.flatten_cons, ← List.append_assoc, splitNl_append (buffer ++ c) cs.flatten,
          joinLast_decomp _ _ hPne, splitNl_append _ cs.flatten,
          splitNl_eq_single _ hb1]
      have hRne : splitNl ((splitNl (buffer ++ c)).getLastD [] ++ cs.flatten) ≠ [] :=
        splitNl_ne_nil _
      show ((runReader (readStep buffer c).1 cs).1,
        (readStep buffer c).2 ++ (runReader (readStep buffer c).1 cs).2) = _
      rw [readStep, ih _ hb1, hdec]
      rw [getLastD_append_right _ _ hRne, List.dropLast_append_of_ne_nil _ hRne,
        emitLines_append]

/-- If the text received so far ends in a newline, its final split segment is
empty. -/
theorem splitNl_last_of_newline_end (l : List Char) (hne : l ≠ [])
    (hnl : l.getLast hne = '\n') : (splitNl l).getLastD [] = [] := by
  have hdecomp : l.dropLast ++ ['\n'] = l := by
    rw [← hnl]; exact List.dropLast_append_getLast hne
  rw [← hdecomp, splitNl_append l.dropLast ['\n'],
    joinLast_decomp _ _ (splitNl_ne_nil _)]
  have : splitNl ['\n'] = [[], []] := rfl
  rw [this]
  rw [getLastD_append_right _ _ (by simp [joinLast]) []]
  simp [joinLast]

/-- Dropping an empty final segment does not change the emitted lines. -/
theorem emitLines_dropLast_of_last_empty (L : List (List Char)) (hne : L ≠ [])
    (hlast : L.getLastD [] = []) : emitLines L = emitLines L.dropLast := by
  have hdecomp : L.dropLast ++ [L.getLast hne] = L := List.dropLast_append_getLast hne
  have hlast' : L.getLast hne = [] := by
    rw [List.getLastD_eq_getLast? _ _, List.getLast?_eq_getLast L hne] at hlast
    exact hlast
  conv_lhs => rw [← hdecomp]
  rw [emitLines_append, hlast']
  simp [emitLines, trimChars]

/-! ### Data model (source lines 42–100)

React `useState` cells of the component become fields of `CtrlState`.
`port`, `reader` and `writer` are platform handles; only their presence is
state-relevant, so they are modelled as booleans.  `ConsoleEntry` timestamps
(`new Date()`) are wall-clock values with no protocol meaning and are not
modelled. -/

inductive LogType
  | info
  | success
  | warning
  | error
  | json
deriving DecidableEq

structure ConsoleEntry where
  message : String
  type : LogType
deriving DecidableEq

/-- Decoded structured (JSON) message fields, `interface SerialData`.
`Option` marks presence of the field (`hasOwnProperty`). -/
structure SerialData where
  type : Option String := none
  uptime_ms : Option Nat := none
  free_heap_bytes : Option Nat := none
  version : Option String := none
  laser_state : Option Bool := none
  laser_brightness : Option Nat := none
deriving DecidableEq

structure DeviceStats where
  uptime : Nat
  freeHeap : Nat
  firmwareVersion : String
deriving DecidableEq

structure CtrlState where
  portPresent : Bool
  readerPresent : Bool
  writerPresent : Bool
  isConnected : Bool
  laserOn : Bool
  laserBrightness : Nat
  brightnessInitialized : Bool
  deviceStats : DeviceStats
  consoleData : List ConsoleEntry
deriving DecidableEq

/-- Initial component state (`useState` defaults, source lines 77–100). -/
def initialCtrlState : CtrlState where
  portPresent := false
  readerPresent := false
  writerPresent := false
  isConnected := false
  laserOn := false
  laserBrightness := 50
  brightnessInitialized := false
  deviceStats := { uptime := 0, freeHeap := 45600, firmwareVersion := "Unknown" }
  consoleData :=
    [{ message := "Laser Controller v1.0 Ready", type := LogType.success },
     { message := "Connect your Laser device to start communication...", type := LogType.info }]

/-! ### Event Log (`logMessage`, source lines 164–171) -/

/-- `setConsoleData(prev => [...prev.slice(-99), newEntry])`: keep the last 99
entries, then append the new one. -/
def logMessage (console : List ConsoleEntry) (message : String) (t : LogType) :
    List ConsoleEntry :=
  console.drop (console.length - 99) ++ [{ message := message, type := t }]

/-- `logMessage` lifted to the component state. -/
def logMsg (s : CtrlState) (message : String) (t : LogType) : CtrlState :=
  { s with consoleData := logMessage s.consoleData message t }

theorem logMsg_laserOn (s : CtrlState) (m : String) (t : LogType) :
    (logMsg s m t).laserOn = s.laserOn := rfl

theorem logMsg_laserBrightness (s : CtrlState) (m : String) (t : LogType) :
    (logMsg s m t).laserBrightness = s.laserBrightness := rfl

theorem logMsg_brightnessInitialized (s : CtrlState) (m : String) (t : LogType) :
    (logMsg s m t).brightnessInitialized = s.brightnessInitialized := rfl

theorem logMsg_deviceStats (s : CtrlState) (m : String) (t : LogType) :
    (logMsg s m t).deviceStats = s.deviceStats := rfl

/-! ### State Synchronizer, structured periodic path
(`updateDeviceStats`, source lines 410–441)

JS truthiness is explicit: `x ? a : b` and `x || d` treat a present numeric
field with value `0`, and a present string field `""`, as falsy. -/

/-- `data.free_heap_bytes || prev` style fallback for numeric fields. -/
def jsOrNat (o : Option Nat) (d : Nat) : Nat :=
  match o with
  | some n => if n = 0 then d else n
  | none => d

def updateDeviceStats (s : CtrlState) (data : SerialData) : CtrlState :=
  if data.type = some "status" ∨ data.type = some "heartbeat" then
    let s1 : CtrlState :=
      { s with deviceStats :=
        { uptime :=
            match data.uptime_ms with
            | some u => if u = 0 then s.deviceStats.uptime else u / 1000
            | none => s.deviceStats.uptime
          freeHeap := jsOrNat data.free_heap_bytes s.deviceStats.freeHeap
          firmwareVersion :=
            match data.version with
            | some v => if v = "" then s.deviceStats.firmwareVersion else v
            | none => s.deviceStats.firmwareVersion } }
    let s2 : CtrlState :=
      match data.laser_state with
      | some b => { s1 with laserOn := b }
      | none => s1
    match data.laser_brightness with
    | some lb =>
        let firmwareBrightness := jsOrNat (some lb) 0
        if !s2.brightnessInitialized then
          logMsg { s2 with laserBrightness := firmwareBrightness,
                           brightnessInitialized := true }
            ("Brightness sync from heartbeat: " ++ toString firmwareBrightness ++ "%")
            LogType.info
        else if Nat.dist firmwareBrightness s2.laserBrightness > 2 then
          { s2 with laserBrightness := firmwareBrightness }
        else s2
    | none => s2
  else s

/-! ### Legacy text matchers (`processReceivedData` fallback, source lines 344–407)

The regular expressions of the source are simple enough to be exact here:
each is a literal, optionally followed by `\s*` and a captured token.  For
these patterns greedy matching never needs to backtrack inside `\s*`, `\d+`
or `ON|OFF` (the character class changes at each boundary), so
leftmost-match search with greedy pieces is the exact regex semantics. -/

def lit (s : String) : List Char := s.toList

/-- JS `String.prototype.includes`: the needle occurs somewhere in the hay. -/
def includesSub (needle : List Char) (hay : List Char) : Bool :=
  match hay with
  | [] => needle.isPrefixOf ([] : List Char)
  | _ :: cs => needle.isPrefixOf hay || includesSub needle cs

/-- Greedy `\d+` with its decimal value (`parseInt` of the captured digits). -/
def parseDigitsAux : List Char → Nat → Nat × List Char
  | c :: cs, acc =>
      if c.isDigit then parseDigitsAux cs (acc * 10 + (c.toNat - 48))
      else (acc, c :: cs)
  | [], acc => (acc, [])

def parseNat : List Char → Option (Nat × List Char)
  | c :: cs => if c.isDigit then some (parseDigitsAux cs (c.toNat - 48)) else none
  | [] => none

def skipWS (l : List Char) : List Char := l.dropWhile isWS

/-- Match `\s*(\d+)%` at the start of `l`. -/
def matchNumPercent (l : List Char) : Option Nat :=
  match parseNat (skipWS l) with
  | some (n, rest) =>
      match rest with
      | '%' :: _ => some n
      | _ => none
  | none => none

/-- Leftmost match of `<literal>\s*(\d+)%` anywhere in the line, returning the
captured number. -/
def searchLitNum (l : List Char) (hay : List Char) : Option Nat :=
  match hay with
  | [] => none
  | c :: cs =>
      if l.isPrefixOf (c :: cs) then
        match matchNumPercent ((c :: cs).drop l.length) with
        | some n => some n
        | none => searchLitNum l cs
      else searchLitNum l cs

/-- Match `\s*(ON|OFF)` at the start of `l` (`true` for ON). -/
def matchOnOff (l : List Char) : Option Bool :=
  if (lit "ON").isPrefixOf (skipWS l) then some true
  else if (lit "OFF").isPrefixOf (skipWS l) then some false
  else none

/-- Leftmost match of `<literal>\s*(ON|OFF)` anywhere in the line. -/
def searchLitOnOff (l : List Char) (hay : List Char) : Option Bool :=
  match hay with
  | [] => none
  | c :: cs =>
      if l.isPrefixOf (c :: cs) then
        match matchOnOff ((c :: cs).drop l.length) with
        | some b => some b
        | none => searchLitOnOff l cs
      else searchLitOnOff l cs

/-- Match `v?(\d+\.\d+)` at one position, returning the captured group
(the numeric part, `v` excluded). -/
def matchVerAt (l : List Char) : Option (List Char) :=
  let l' := match l with
    | 'v' :: rest => rest
    | _ => l
  let d1 := l'.takeWhile Char.isDigit
  if d1 = [] then none
  else
    match l'.dropWhile Char.isDigit with
    | '.' :: rest2 =>
        let d2 := rest2.takeWhile Char.isDigit
        if d2 = [] then none else some (d1 ++ '.' :: d2)
    | _ => none

/-- Leftmost match of `/v?(\d+\.\d+)/` anywhere in the line. -/
def searchVer (hay : List Char) : Option (List Char) :=
  match hay with
  | [] => none
  | c :: cs =>
      match matchVerAt (c :: cs) with
      | some v => some v
      | none => searchVer cs

/-! ### Protocol Decoder dispatch (`processReceivedData`, source lines 293–408)

`JSON.parse` is the platform boundary: a received line either parses into a
structured `SerialData` record (the `try` branch) or is treated as legacy
plain text (the `catch` branch). -/

inductive InboundLine
  | json (d : SerialData)
  | text (raw : List Char)

/-- Stand-in for the console text `JSON.stringify(jsonData, null, 2)`.  The
exact text depends on the field order of the original JSON line, which the
decoded record does not retain; no state-relevant behaviour reads it. -/
def jsonRender (d : SerialData) : String :=
  "json message of type " ++
    (match d.type with
     | some t => t
     | none => "(untyped)")

/-- The `initial_state` branch and the structured dispatch of
`processReceivedData` (source lines 296–343). -/
def processJsonData (s : CtrlState) (d : SerialData) : CtrlState :=
  let s' :=
    if d.type = some "initial_state" then
      let s1 := logMsg s "Received initial device state from firmware" LogType.success
      let s2 :=
        match d.laser_state with
        | some b => { s1 with laserOn := b }
        | none => s1
      let s3 :=
        match d.laser_brightness with
        | some v =>
            let deviceBrightness := jsOrNat (some v) 50
            logMsg { s2 with laserBrightness := deviceBrightness,
                             brightnessInitialized := true }
              ("Brightness synced from device: " ++ toString deviceBrightness ++ "%")
              LogType.info
        | none => s2
      let s4 :=
        match d.version with
        | some ver =>
            if ver = "" then s3
            else { s3 with deviceStats := { s3.deviceStats with firmwareVersion := ver } }
        | none => s3
      let s5 :=
        match d.uptime_ms with
        | some u =>
            if u = 0 then s4
            else { s4 with deviceStats := { s4.deviceStats with uptime := u / 1000 } }
        | none => s4
      match d.free_heap_bytes with
      | some f =>
          if f = 0 then s5
          else { s5 with deviceStats := { s5.deviceStats with freeHeap := f } }
      | none => s5
    else
      updateDeviceStats s d
  logMsg s' (jsonRender d) LogType.json

/-- Legacy matcher 1 (source lines 347–357): firmware-version markers. -/
def legacyVersionStep (s : CtrlState) (data : List Char) : CtrlState :=
  if includesSub (lit "Firmware Version:") data || includesSub (lit "ESP32-S3") data
      || includesSub (lit "v5.") data || includesSub (lit "Ready") data then
    match searchVer data with
    | some v =>
        { s with deviceStats := { s.deviceStats with firmwareVersion := String.mk v } }
    | none =>
        if includesSub (lit "v5.1") data || includesSub (lit "5.1") data
            || includesSub (lit "Ready") data then
          { s with deviceStats := { s.deviceStats with firmwareVersion := "5.1" } }
        else if includesSub (lit "v5.0") data || includesSub (lit "5.0") data then
          { s with deviceStats := { s.deviceStats with firmwareVersion := "5.0" } }
        else s
  else s

/-- Legacy matcher 2 (source lines 360–368): `Loaded brightness: NN%`. -/
def legacyLoadedStep (s : CtrlState) (data : List Char) : CtrlState :=
  if includesSub (lit "Loaded brightness:") data then
    match searchLitNum (lit "Loaded brightness:") data with
    | some n =>
        logMsg { s with laserBrightness := n, brightnessInitialized := true }
          ("Device brightness restored from preferences: " ++ toString n ++ "%")
          LogType.info
    | none => s
  else s

/-- Legacy matcher 3 (source lines 371–385): `Device initialized` banner. -/
def legacyDeviceInitStep (s : CtrlState) (data : List Char) : CtrlState :=
  if includesSub (lit "Device initialized") data then
    let s1 :=
      match searchLitNum (lit "Brightness:") data with
      | some n =>
          logMsg { s with laserBrightness := n, brightnessInitialized := true }
            ("Brightness initialized: " ++ toString n ++ "%") LogType.info
      | none => s
    match searchLitOnOff (lit "Laser:") data with
    | some b => { s1 with laserOn := b }
    | none => s1
  else s

/-- Legacy matcher 4 (source lines 388–390): connection-detection banner. -/
def legacyConnStep (s : CtrlState) (data : List Char) : CtrlState :=
  if includesSub (lit "Connection detected") data then
    logMsg s "Firmware detected UI connection" LogType.info
  else s

/-- Legacy matcher 5 (source lines 393–406): manual status echo. -/
def legacyStatusEchoStep (s : CtrlState) (data : List Char) : CtrlState :=
  if includesSub (lit "Laser State:") data && includesSub (lit "Laser Brightness:") data then
    let s1 :=
      match searchLitOnOff (lit "Laser State:") data with
      | some b => { s with laserOn := b }
      | none => s
    match searchLitNum (lit "Laser Brightness:") data with
    | some n =>
        logMsg { s1 with laserBrightness := n, brightnessInitialized := true }
          ("Manual brightness sync: " ++ toString n ++ "%") LogType.info
    | none => s1
  else s

/-- The `catch` branch of `processReceivedData` (source lines 344–407): log
the raw line, then run the ordered, independent legacy text matchers — each
is evaluated on the line regardless of whether an earlier one matched. -/
def processLegacyText (s : CtrlState) (data : List Char) : CtrlState :=
  legacyStatusEchoStep
    (legacyConnStep
      (legacyDeviceInitStep
        (legacyLoadedStep
          (legacyVersionStep (logMsg s (String.mk data) LogType.success) data)
          data)
        data)
      data)
    data

def processReceivedData (s : CtrlState) : InboundLine → CtrlState
  | InboundLine.json d => processJsonData s d
  | InboundLine.text raw => processLegacyText s raw

/-! ### Command Dispatcher (`sendCommand`, source lines 103–123)

The function is total: both the missing-session branch and a rejected write
(the `catch` around `currentWriter.write`) turn into a log entry, never a
thrown exception.  `writeError` is the platform outcome of the write; the
second component of the result is the byte string actually delivered to the
transport, `none` when nothing was written. -/

def sendCommand (s : CtrlState) (command : String) (writeError : Option String) :
    CtrlState × Option String :=
  if !s.writerPresent || !s.isConnected then
    (logMsg s "No connection available" LogType.error, none)
  else
    match writeError with
    | none => (logMsg s ("Sent: " ++ command) LogType.warning, some (command ++ "\n"))
    | some msg => (logMsg s ("Send error: " ++ msg) LogType.error, none)

/-! ### Disconnect (`disconnect`, source lines 215–248)

The teardown I/O steps (cancel reader, close writer, close port) are
best-effort platform calls; `closeError` is the outcome of `port.close()`.
The state updates are the `setXxx` calls at the end plus the conditional log
from the port-close step.  (The `useEffect` on `isConnected` at source lines
134–141 re-asserts `brightnessInitialized = false`, already set here.) -/

def disconnect (s : CtrlState) (closeError : Option String) : CtrlState :=
  let s1 :=
    if s.portPresent then
      match closeError with
      | none => logMsg s "Serial connection closed" LogType.warning
      | some msg => logMsg s ("Port close error: " ++ msg) LogType.error
    else s
  { s1 with portPresent := false, readerPresent := false, writerPresent := false,
            isConnected := false, brightnessInitialized := false,
            deviceStats := { s1.deviceStats with firmwareVersion := "Unknown" } }

/-! ### Debounce (source lines 64–74 and 126–131)

`debounce` keeps a single timeout slot in its closure; every call runs
`clearTimeout(timeout); timeout = setTimeout(...)`, so at most one invocation
is ever pending and a new call replaces the pending one.  Time is abstracted
into discrete events: `call v` is an invocation of the debounced function
(re-arming the slot with the latest argument) and `fire` is the expiry of the
armed timer after a quiet period, which sends `SET_LASER_PWM:<value>`. -/

def pwmCommand (v : Nat) : String := "SET_LASER_PWM:" ++ toString v

structure DebounceState where
  pending : Option Nat
deriving DecidableEq

inductive DebounceEvent
  | call (v : Nat)
  | fire
deriving DecidableEq

def debounceStep (s : DebounceState) : DebounceEvent → DebounceState × List String
  | DebounceEvent.call v => ({ pending := some v }, [])
  | DebounceEvent.fire =>
      match s.pending with
      | some v => ({ pending := none }, [pwmCommand v])
      | none => (s, [])

def runDebounce (s : DebounceState) : List DebounceEvent → DebounceState × List String
  | [] => (s, [])
  | e :: es =>
      ((runDebounce (debounceStep s e).1 es).1,
       (debounceStep s e).2 ++ (runDebounce (debounceStep s e).1 es).2)

/-! ### Brightness auto-send effect (source lines 143–148)

The `useEffect` with dependencies `[laserBrightness, laserOn, isConnected,
brightnessInitialized, ...]` runs after any of these cells changes and arms the
debounced brightness send only when
`laserOn && isConnected && brightnessInitialized`.  `EffectState` combines
those cells with the debounce slot; each event performs the state update of
the corresponding handler and then the effect. -/

structure EffectState where
  laserOn : Bool
  isConnected : Bool
  brightnessInitialized : Bool
  laserBrightness : Nat
  pending : Option Nat
deriving DecidableEq

inductive UiEvent
  | changeBrightness (v : Nat)
  | toggleLaser
  | setConnected (b : Bool)
  | setInitialized (b : Bool)
  | timerFire
deriving DecidableEq

/-- The body of the effect: arm the debounced send when the gate holds. -/
def armBrightnessSend (s : EffectState) : EffectState :=
  if s.laserOn && s.isConnected && s.brightnessInitialized then
    { s with pending := some s.laserBrightness }
  else s

def uiStep (s : EffectState) : UiEvent → EffectState × List String
  | UiEvent.changeBrightness v =>
      (armBrightnessSend { s with laserBrightness := v }, [])
  | UiEvent.toggleLaser =>
      (armBrightnessSend { s with laserOn := !s.laserOn },
       [if !s.laserOn then "LASER_ON" else "LASER_OFF"])
  | UiEvent.setConnected b =>
      (armBrightnessSend { s with isConnected := b }, [])
  | UiEvent.setInitialized b =>
      (armBrightnessSend { s with brightnessInitialized := b }, [])
  | UiEvent.timerFire =>
      match s.pending with
      | some v => ({ s with pending := none }, [pwmCommand v])
      | none => (s, [])

def runUi (s : EffectState) : List UiEvent → EffectState × List String
  | [] => (s, [])
  | e :: es =>
      ((runUi (uiStep s e).1 es).1,
       (uiStep s e).2 ++ (runUi (uiStep s e).1 es).2)

/-! ## Supporting lemmas for the claims -/

theorem logMessage_length_le (l : List ConsoleEntry) (m : String) (t : LogType) :
    (logMessage l m t).length ≤ 100 := by
  simp only [logMessage, List.length_append, List.length_drop, List.length_singleton]
  omega

theorem foldl_logMessage_length (msgs : List (String × LogType)) :
    ∀ start : List ConsoleEntry, start.length ≤ 100 →
      (msgs.foldl (fun acc p => logMessage acc p.1 p.2) start).length ≤ 100 := by
  induction msgs with
  | nil => intro start h; simpa using h
  | cons p ps ih =>
      intro start h
      rw [List.foldl_cons]
      exact ih _ (logMessage_length_le _ _ _)

/-- A state with an open session, used by concrete instantiations. -/
def connectedState : CtrlState :=
  { initialCtrlState with portPresent := true, readerPresent := true,
                          writerPresent := true, isConnected := true }

/-! ## Claims -/

/-- Claim C3: for every chunk sequence, the frame reader emits exactly the
trimmed nonempty segments of the received text that precede the final
(possibly incomplete) segment — a line whose terminating newline has not yet
arrived is never emitted and is retained in the buffer — and when the
concatenation of the chunks contains only complete, newline-terminated lines
(it ends in a newline), the emitted lines are exactly the segments of the
concatenation split on the newline delimiter, trimmed, with empty segments
discarded, in original order. -/
theorem frameReader_correct (chunks : List (List Char)) :
    (runReader [] chunks).2 = emitLines (splitNl chunks.flatten).dropLast
    ∧ (runReader [] chunks).1 = (splitNl chunks.flatten).getLastD []
    ∧ (chunks.flatten.getLast? = some '\n' →
        (runReader [] chunks).2 = emitLines (splitNl chunks.flatten)) := by
  have h := runReader_spec chunks [] (by simp)
  rw [List.nil_append] at h
  refine ⟨by rw [h], by rw [h], fun hnl => ?_⟩
  have hne : chunks.flatten ≠ [] := by
    intro h0; rw [h0] at hnl; simp at hnl
  have hlast : chunks.flatten.getLast hne = '\n' := by
    rw [List.getLast?_eq_getLast _ hne] at hnl
    exact Option.some.inj hnl
  rw [h]
  exact (emitLines_dropLast_of_last_empty _ (splitNl_ne_nil _)
    (splitNl_last_of_newline_end _ hne hlast)).symm

/-- Witness for C3 at the chunks "AB\nC", "D\n". -/
theorem frameReader_correct_witness :
    (runReader [] [['A', 'B', '\n', 'C'], ['D', '\n']]).2 =
      emitLines (splitNl ([['A', 'B', '\n', 'C'], ['D', '\n']] : List (List Char)).flatten) :=
  (frameReader_correct [['A', 'B', '\n', 'C'], ['D', '\n']]).2.2 (by decide)

/-- Claim C4: a run of brightness changes within one debounce window followed
by the quiet-period expiry produces exactly one outbound command, and it
carries the last value — each call overwrites the single pending timer slot,
cancelling any prior pending send. -/
theorem debounce_last_value_wins (vs : List Nat) (v : Nat) (s : DebounceState) :
    runDebounce s ((vs ++ [v]).map DebounceEvent.call ++ [DebounceEvent.fire])
      = ({ pending := none }, [pwmCommand v]) := by
  induction vs generalizing s with
  | nil => rfl
  | cons w ws ih =>
      simpa [runDebounce, debounceStep] using ih { pending := some w }

/-- Claim C5: disconnect clears brightnessInitialized and resets the firmware
version to "Unknown", while the last observed power and brightness values are
retained unchanged. -/
theorem disconnect_resets (s : CtrlState) (closeError : Option String) :
    (disconnect s closeError).brightnessInitialized = false
    ∧ (disconnect s closeError).deviceStats.firmwareVersion = "Unknown"
    ∧ (disconnect s closeError).laserOn = s.laserOn
    ∧ (disconnect s closeError).laserBrightness = s.laserBrightness := by
  unfold disconnect
  rcases closeError with _ | msg <;> by_cases hp : s.portPresent <;>
    simp [hp, logMsg]

/-- Claim C7: starting from any log of at most 100 entries, every sequence of
appends keeps the log at no more than 100 entries; and an append to a full
log of exactly 100 entries first evicts the oldest entry (the head) and then
adds the new entry at the end. -/
theorem eventLog_capacity (start : List ConsoleEntry) (msgs : List (String × LogType))
    (l : List ConsoleEntry) (m : String) (t : LogType) :
    (start.length ≤ 100 →
      (msgs.foldl (fun acc p => logMessage acc p.1 p.2) start).length ≤ 100)
    ∧ (l.length = 100 →
      logMessage l m t = l.tail ++ [{ message := m, type := t }]) := by
  refine ⟨fun h => foldl_logMessage_length msgs start h, fun hl => ?_⟩
  simp [logMessage, hl, List.drop_one]

/-- Witness for C7: the appends from the initial console, and the 101st
append to a full log of 100 entries. -/
theorem eventLog_capacity_witness :
    (([("a", LogType.info)] : List (String × LogType)).foldl
        (fun acc p => logMessage acc p.1 p.2) initialCtrlState.consoleData).length ≤ 100
    ∧ logMessage (List.replicate 100 { message := "x", type := LogType.info }) "y"
        LogType.success
      = (List.replicate 100 ({ message := "x", type := LogType.info } : ConsoleEntry)).tail
          ++ [{ message := "y", type := LogType.success }] :=
  ⟨(eventLog_capacity initialCtrlState.consoleData [("a", LogType.info)]
      [] "" LogType.info).1 (by decide),
   (eventLog_capacity [] [] (List.replicate 100 { message := "x", type := LogType.info })
      "y" LogType.success).2 (by simp)⟩

/-- Claim C8: with no open writable session (no writer or not connected),
`sendCommand` appends a failure entry to the log and returns without writing
anything (and, being a total function whose error branches all end in a log
entry, without raising); with a writable session and a successful write, it
writes the command text followed by exactly one line terminator and logs the
attempt. -/
theorem sendCommand_behavior (s : CtrlState) (command : String)
    (writeError : Option String) :
    ((s.writerPresent = false ∨ s.isConnected = false) →
      sendCommand s command writeError =
        (logMsg s "No connection available" LogType.error, none))
    ∧ (s.writerPresent = true → s.isConnected = true →
      sendCommand s command none =
        (logMsg s ("Sent: " ++ command) LogType.warning, some (command ++ "\n"))) := by
  constructor
  · intro h
    rcases h with h | h <;> simp [sendCommand, h]
  · intro h1 h2
    simp [sendCommand, h1, h2]

/-- Witness for C8: a disconnected send and a connected send of "STATUS". -/
theorem sendCommand_behavior_witness :
    sendCommand initialCtrlState "STATUS" none =
      (logMsg initialCtrlState "No connection available" LogType.error, none)
    ∧ sendCommand connectedState "STATUS" none =
      (logMsg connectedState ("Sent: " ++ "STATUS") LogType.warning,
       some ("STATUS" ++ "\n")) :=
  ⟨(sendCommand_behavior initialCtrlState "STATUS" none).1 (Or.inl rfl),
   (sendCommand_behavior connectedState "STATUS" none).2 rfl rfl⟩

/-- In a run of the brightness-effect machine that starts with the laser off
and no pending timer and contains no laser toggle, nothing is ever sent. -/
theorem runUi_laserOff_no_output (events : List UiEvent) :
    ∀ s : EffectState, s.laserOn = false → s.pending = none →
      (∀ e ∈ events, e ≠ UiEvent.toggleLaser) → (runUi s events).2 = [] := by
  induction events with
  | nil => intro s _ _ _; rfl
  | cons e es ih =>
      intro s hoff hp hnt
      have hes : ∀ x ∈ es, x ≠ UiEvent.toggleLaser :=
        fun x hx => hnt x (List.mem_cons_of_mem e hx)
      cases e with
      | toggleLaser => exact absurd rfl (hnt _ (List.mem_cons_self _ _))
      | changeBrightness v =>
          simp only [runUi, uiStep, armBrightnessSend, hoff]
          simpa using ih _ (by simp [hoff]) (by simp [hp]) hes
      | setConnected b =>
          simp only [runUi, uiStep, armBrightnessSend, hoff]
          simpa using ih _ (by simp [hoff]) (by simp [hp]) hes
      | setInitialized b =>
          simp only [runUi, uiStep, armBrightnessSend, hoff]
          simpa using ih _ (by simp [hoff]) (by simp [hp]) hes
      | timerFire =>
          simp only [runUi, uiStep, hp]
          simpa using ih _ hoff hp hes

/-- Claim C9: a `SET_LASER_PWM` brightness command is never dispatched while
the laser power state is off — the effect that arms the debounced brightness
send requires `laserOn` (in addition to `isConnected` and
`brightnessInitialized`), so a run that starts with the laser off, with no
pending timer, and never toggles the laser on emits no `SET_LASER_PWM`
command. -/
theorem no_pwm_while_laser_off (s : EffectState) (events : List UiEvent)
    (hoff : s.laserOn = false) (hp : s.pending = none)
    (hnt : ∀ e ∈ events, e ≠ UiEvent.toggleLaser) :
    ∀ msg ∈ (runUi s events).2, ∀ v : Nat, msg ≠ pwmCommand v := by
  rw [runUi_laserOff_no_output events s hoff hp hnt]
  intro msg hmsg
  simp at hmsg

/-- Witness for C9: brightness changes and a timer expiry while the laser is
off produce no `SET_LASER_PWM:10`. -/
theorem no_pwm_while_laser_off_witness :
    pwmCommand 10 ∉ (runUi
      { laserOn := false, isConnected := true, brightnessInitialized := true,
        laserBrightness := 40, pending := none }
      [UiEvent.changeBrightness 10, UiEvent.setConnected true, UiEvent.timerFire]).2 := by
  intro hmem
  exact no_pwm_while_laser_off
    { laserOn := false, isConnected := true, brightnessInitialized := true,
      laserBrightness := 40, pending := none }
    [UiEvent.changeBrightness 10, UiEvent.setConnected true, UiEvent.timerFire]
    rfl rfl (by decide) (pwmCommand 10) hmem 10 rfl

/-- `data.laser_brightness || 0` is the identity on a present numeric field. -/
theorem jsOrNat_some_zero (n : Nat) : jsOrNat (some n) 0 = n := by
  by_cases h : n = 0
  · subst h; rfl
  · simp [jsOrNat, h]

/-- Claim C1: when `brightnessInitialized` is true, a brightness value carried
by a structured status/heartbeat message is applied iff it differs from the
current brightness by more than 2 percentage points; otherwise the current
value is kept. -/
theorem heartbeat_brightness_gate (s : CtrlState) (d : SerialData) (v : Nat)
    (hinit : s.brightnessInitialized = true)
    (htype : d.type = some "status" ∨ d.type = some "heartbeat")
    (hlb : d.laser_brightness = some v) :
    (updateDeviceStats s d).laserBrightness =
      if 2 < Nat.dist v s.laserBrightness then v else s.laserBrightness := by
  unfold updateDeviceStats
  rw [if_pos htype, hlb]
  rcases d.laser_state with _ | b <;>
    simp [jsOrNat_some_zero, hinit] <;> split <;> simp_all

/-- Witness for C1: from brightness 50 (initialized), a heartbeat carrying 51
is suppressed and one carrying 10 is applied. -/
theorem heartbeat_brightness_gate_witness :
    (updateDeviceStats { initialCtrlState with brightnessInitialized := true }
      { type := some "heartbeat", laser_brightness := some 51 }).laserBrightness = 50
    ∧ (updateDeviceStats { initialCtrlState with brightnessInitialized := true }
      { type := some "heartbeat", laser_brightness := some 10 }).laserBrightness = 10 := by
  constructor
  · rw [heartbeat_brightness_gate _ _ 51 rfl (Or.inr rfl) rfl]; decide
  · rw [heartbeat_brightness_gate _ _ 10 rfl (Or.inr rfl) rfl]; decide

/-! Field-application lemmas for the `initial_state` branch. -/

theorem processJson_initialState_laserOn (s : CtrlState) (d : SerialData)
    (ht : d.type = some "initial_state") (b : Bool) (hb : d.laser_state = some b) :
    (processJsonData s d).laserOn = b := by
  unfold processJsonData
  rw [if_pos ht, hb]
  repeat' split
  all_goals simp_all [logMsg]

theorem processJson_initialState_brightness (s : CtrlState) (d : SerialData)
    (ht : d.type = some "initial_state") (v : Nat) (hv : d.laser_brightness = some v) :
    (processJsonData s d).laserBrightness = (if v = 0 then 50 else v)
    ∧ (processJsonData s d).brightnessInitialized = true := by
  unfold processJsonData
  rw [if_pos ht, hv]
  constructor <;>
    · repeat' split
      all_goals simp_all [logMsg, jsOrNat]

theorem processJson_initialState_version (s : CtrlState) (d : SerialData)
    (ht : d.type = some "initial_state") (ver : String) (hv : d.version = some ver)
    (hne : ver ≠ "") :
    (processJsonData s d).deviceStats.firmwareVersion = ver := by
  unfold processJsonData
  rw [if_pos ht, hv]
  repeat' split
  all_goals simp_all [logMsg]

theorem processJson_initialState_uptime (s : CtrlState) (d : SerialData)
    (ht : d.type = some "initial_state") (u : Nat) (hu : d.uptime_ms = some u)
    (hne : u ≠ 0) :
    (processJsonData s d).deviceStats.uptime = u / 1000 := by
  unfold processJsonData
  rw [if_pos ht, hu]
  repeat' split
  all_goals simp_all [logMsg]

theorem processJson_initialState_freeHeap (s : CtrlState) (d : SerialData)
    (ht : d.type = some "initial_state") (f : Nat) (hf : d.free_heap_bytes = some f)
    (hne : f ≠ 0) :
    (processJsonData s d).deviceStats.freeHeap = f := by
  unfold processJsonData
  rw [if_pos ht, hf]
  repeat' split
  all_goals simp_all [logMsg]

theorem updateDeviceStats_uninit (s : CtrlState) (d : SerialData) (v : Nat)
    (hinit : s.brightnessInitialized = false)
    (htype : d.type = some "status" ∨ d.type = some "heartbeat")
    (hlb : d.laser_brightness = some v) :
    (updateDeviceStats s d).laserBrightness = v
    ∧ (updateDeviceStats s d).brightnessInitialized = true := by
  unfold updateDeviceStats
  rw [if_pos htype, hlb]
  rcases d.laser_state with _ | b <;>
    simp [jsOrNat_some_zero, hinit, logMsg]

/-- Claim C10: an initial_state message whose laser_brightness field is
present with value 0 sets brightness to the hard-coded fallback 50 (not 0)
while still setting brightnessInitialized; by contrast the heartbeat/status
path substitutes 0 for a falsy laser_brightness value (stored as 0 on an
uninitialized state). -/
theorem initialState_zero_fallback (s s' : CtrlState) (d d' : SerialData)
    (ht : d.type = some "initial_state") (hlb : d.laser_brightness = some 0)
    (ht' : d'.type = some "heartbeat") (hlb' : d'.laser_brightness = some 0)
    (hinit' : s'.brightnessInitialized = false) :
    ((processReceivedData s (InboundLine.json d)).laserBrightness = 50
      ∧ (processReceivedData s (InboundLine.json d)).brightnessInitialized = true)
    ∧ ((updateDeviceStats s' d').laserBrightness = 0
      ∧ (updateDeviceStats s' d').brightnessInitialized = true) := by
  refine ⟨?_, updateDeviceStats_uninit s' d' 0 hinit' (Or.inr ht') hlb'⟩
  have h := processJson_initialState_brightness s d ht 0 hlb
  simpa [processReceivedData] using h

/-- Witness for C10 at concrete messages carrying laser_brightness = 0. -/
theorem initialState_zero_fallback_witness :
    ((processReceivedData initialCtrlState (InboundLine.json
        { type := some "initial_state", laser_brightness := some 0 })).laserBrightness = 50
      ∧ (processReceivedData initialCtrlState (InboundLine.json
        { type := some "initial_state",
          laser_brightness := some 0 })).brightnessInitialized = true)
    ∧ ((updateDeviceStats initialCtrlState
        { type := some "heartbeat", laser_brightness := some 0 }).laserBrightness = 0
      ∧ (updateDeviceStats initialCtrlState
        { type := some "heartbeat",
          laser_brightness := some 0 }).brightnessInitialized = true) :=
  initialState_zero_fallback initialCtrlState initialCtrlState
    { type := some "initial_state", laser_brightness := some 0 }
    { type := some "heartbeat", laser_brightness := some 0 }
    rfl rfl rfl rfl rfl

/-- Claim C2 counterexample: initial_state fields are not applied
unconditionally — a carried laser_brightness of 0 is not applied; the stored
brightness becomes the fallback 50 instead. -/
theorem initialState_zero_not_applied :
    (processReceivedData initialCtrlState (InboundLine.json
      { type := some "initial_state", laser_brightness := some 0 })).laserBrightness = 50
    ∧ (processReceivedData initialCtrlState (InboundLine.json
      { type := some "initial_state", laser_brightness := some 0 })).laserBrightness ≠ 0 := by
  decide

/-- Claim C2 (amended): processing the input line
`{"type":"initial_state","laser_brightness":77,"laser_state":true}` yields
power = true, brightness = 77 and brightnessInitialized = true; in general a
field carried by an initial_state message is applied when truthy: a present
laser_state is always applied, a present laser_brightness is applied with the
falsy value 0 replaced by the fallback 50, and firmware version, uptime and
free memory are applied when present and nonempty (resp. nonzero). -/
theorem initialState_fields_applied (s : CtrlState) (d : SerialData)
    (ht : d.type = some "initial_state") :
    ((processReceivedData s (InboundLine.json
        { type := some "initial_state", laser_state := some true,
          laser_brightness := some 77 })).laserOn = true
      ∧ (processReceivedData s (InboundLine.json
        { type := some "initial_state", laser_state := some true,
          laser_brightness := some 77 })).laserBrightness = 77
      ∧ (processReceivedData s (InboundLine.json
        { type := some "initial_state", laser_state := some true,
          laser_brightness := some 77 })).brightnessInitialized = true)
    ∧ (∀ b : Bool, d.laser_state = some b →
        (processReceivedData s (InboundLine.json d)).laserOn = b)
    ∧ (∀ v : Nat, d.laser_brightness = some v →
        (processReceivedData s (InboundLine.json d)).laserBrightness
            = (if v = 0 then 50 else v)
        ∧ (processReceivedData s (InboundLine.json d)).brightnessInitialized = true)
    ∧ (∀ ver : String, d.version = some ver → ver ≠ "" →
        (processReceivedData s (InboundLine.json d)).deviceStats.firmwareVersion = ver)
    ∧ (∀ u : Nat, d.uptime_ms = some u → u ≠ 0 →
        (processReceivedData s (InboundLine.json d)).deviceStats.uptime = u / 1000)
    ∧ (∀ f : Nat, d.free_heap_bytes = some f → f ≠ 0 →
        (processReceivedData s (InboundLine.json d)).deviceStats.freeHeap = f) := by
  refine ⟨⟨?_, ?_, ?_⟩, ?_, ?_, ?_, ?_, ?_⟩
  · exact processJson_initialState_laserOn s _ rfl true rfl
  · simpa using (processJson_initialState_brightness s _ rfl 77 rfl).1
  · exact (processJson_initialState_brightness s _ rfl 77 rfl).2
  · exact fun b hb => processJson_initialState_laserOn s d ht b hb
  · exact fun v hv => processJson_initialState_brightness s d ht v hv
  · exact fun ver hv hne => processJson_initialState_version s d ht ver hv hne
  · exact fun u hu hne => processJson_initialState_uptime s d ht u hu hne
  · exact fun f hf hne => processJson_initialState_freeHeap s d ht f hf hne

/-- Witness for C2 (amended) at the concrete message of the claim. -/
theorem initialState_fields_applied_witness :
    (processReceivedData initialCtrlState (InboundLine.json
      { type := some "initial_state", laser_state := some true,
        laser_brightness := some 77 })).laserBrightness = 77 :=
  ((initialState_fields_applied initialCtrlState
      { type := some "initial_state", laser_state := some true,
        laser_brightness := some 77 } rfl).1).2.1

/-! Brightness values decoded from a line, per matcher: used to state the
conditional range invariant of claim C6. -/

def loadedVals (data : List Char) : List Nat :=
  if includesSub (lit "Loaded brightness:") data then
    match searchLitNum (lit "Loaded brightness:") data with
    | some n => [n]
    | none => []
  else []

def deviceInitVals (data : List Char) : List Nat :=
  if includesSub (lit "Device initialized") data then
    match searchLitNum (lit "Brightness:") data with
    | some n => [n]
    | none => []
  else []

def statusEchoVals (data : List Char) : List Nat :=
  if includesSub (lit "Laser State:") data && includesSub (lit "Laser Brightness:") data then
    match searchLitNum (lit "Laser Brightness:") data with
    | some n => [n]
    | none => []
  else []

/-- All brightness values a line carries, as decoded by the matchers that the
processing path actually consults. -/
def lineBrightnessValues : InboundLine → List Nat
  | InboundLine.json d =>
      match d.laser_brightness with
      | some v => [v]
      | none => []
  | InboundLine.text raw => loadedVals raw ++ deviceInitVals raw ++ statusEchoVals raw

theorem legacyVersionStep_laserBrightness (s : CtrlState) (data : List Char) :
    (legacyVersionStep s data).laserBrightness = s.laserBrightness := by
  unfold legacyVersionStep
  repeat' split
  all_goals rfl

theorem legacyConnStep_laserBrightness (s : CtrlState) (data : List Char) :
    (legacyConnStep s data).laserBrightness = s.laserBrightness := by
  unfold legacyConnStep
  split
  all_goals rfl

theorem legacyLoadedStep_cases (s : CtrlState) (data : List Char) :
    (legacyLoadedStep s data).laserBrightness = s.laserBrightness
    ∨ (legacyLoadedStep s data).laserBrightness ∈ loadedVals data := by
  unfold legacyLoadedStep loadedVals
  by_cases h : includesSub (lit "Loaded brightness:") data = true
  · rw [if_pos h, if_pos h]
    rcases hm : searchLitNum (lit "Loaded brightness:") data with _ | n
    · left; rfl
    · right; simp [logMsg]
  · rw [if_neg h, if_neg h]
    left; rfl

theorem legacyDeviceInitStep_cases (s : CtrlState) (data : List Char) :
    (legacyDeviceInitStep s data).laserBrightness = s.laserBrightness
    ∨ (legacyDeviceInitStep s data).laserBrightness ∈ deviceInitVals data := by
  unfold legacyDeviceInitStep deviceInitVals
  by_cases h : includesSub (lit "Device initialized") data = true
  · rw [if_pos h, if_pos h]
    rcases hm : searchLitNum (lit "Brightness:") data with _ | n <;>
      rcases ho : searchLitOnOff (lit "Laser:") data with _ | b <;>
        simp [logMsg]
  · rw [if_neg h, if_neg h]
    left; rfl

theorem legacyStatusEchoStep_cases (s : CtrlState) (data : List Char) :
    (legacyStatusEchoStep s data).laserBrightness = s.laserBrightness
    ∨ (legacyStatusEchoStep s data).laserBrightness ∈ statusEchoVals data := by
  unfold legacyStatusEchoStep statusEchoVals
  by_cases h : (includesSub (lit "Laser State:") data
      && includesSub (lit "Laser Brightness:") data) = true
  · rw [if_pos h, if_pos h]
    rcases hm : searchLitNum (lit "Laser Brightness:") data with _ | n <;>
      rcases ho : searchLitOnOff (lit "Laser State:") data with _ | b <;>
        simp [logMsg]
  · rw [if_neg h, if_neg h]
    left; rfl

theorem processLegacy_brightness_le (s : CtrlState) (raw : List Char)
    (hs : s.laserBrightness ≤ 100)
    (hv : ∀ v ∈ loadedVals raw ++ deviceInitVals raw ++ statusEchoVals raw, v ≤ 100) :
    (processLegacyText s raw).laserBrightness ≤ 100 := by
  have h0 : (logMsg s (String.mk raw) LogType.success).laserBrightness ≤ 100 := by
    simpa [logMsg] using hs
  have h1 : (legacyVersionStep (logMsg s (String.mk raw) LogType.success)
      raw).laserBrightness ≤ 100 := by
    rw [legacyVersionStep_laserBrightness]; exact h0
  have h2 : (legacyLoadedStep (legacyVersionStep
      (logMsg s (String.mk raw) LogType.success) raw) raw).laserBrightness ≤ 100 := by
    rcases legacyLoadedStep_cases _ raw with h | h
    · rw [h]; exact h1
    · exact hv _ (List.mem_append_left _ (List.mem_append_left _ h))
  have h3 : (legacyDeviceInitStep (legacyLoadedStep (legacyVersionStep
      (logMsg s (String.mk raw) LogType.success) raw) raw) raw).laserBrightness ≤ 100 := by
    rcases legacyDeviceInitStep_cases _ raw with h | h
    · rw [h]; exact h2
    · exact hv _ (List.mem_append_left _ (List.mem_append_right _ h))
  have h4 : (legacyConnStep (legacyDeviceInitStep (legacyLoadedStep (legacyVersionStep
      (logMsg s (String.mk raw) LogType.success) raw) raw) raw) raw).laserBrightness
      ≤ 100 := by
    rw [legacyConnStep_laserBrightness]; exact h3
  have h5 : (legacyStatusEchoStep (legacyConnStep (legacyDeviceInitStep
      (legacyLoadedStep (legacyVersionStep (logMsg s (String.mk raw) LogType.success)
        raw) raw) raw) raw) raw).laserBrightness ≤ 100 := by
    rcases legacyStatusEchoStep_cases _ raw with h | h
    · rw [h]; exact h4
    · exact hv _ (List.mem_append_right _ h)
  exact h5

theorem updateDeviceStats_brightness_le (s : CtrlState) (d : SerialData)
    (hs : s.laserBrightness ≤ 100)
    (hv : ∀ v, d.laser_brightness = some v → v ≤ 100) :
    (updateDeviceStats s d).laserBrightness ≤ 100 := by
  unfold updateDeviceStats
  split
  · rcases hlb : d.laser_brightness with _ | v
    · rcases d.laser_state with _ | b <;> simp [hs]
    · have hvle := hv v hlb
      rcases d.laser_state with _ | b <;>
        simp only [jsOrNat_some_zero] <;>
        split <;> simp [logMsg, hs, hvle] <;>
        split <;> simp [logMsg, hs, hvle]
  · exact hs

theorem processJson_brightness_le (s : CtrlState) (d : SerialData)
    (hs : s.laserBrightness ≤ 100)
    (hv : ∀ v, d.laser_brightness = some v → v ≤ 100) :
    (processJsonData s d).laserBrightness ≤ 100 := by
  unfold processJsonData
  rw [logMsg_laserBrightness]
  split
  · rcases hlb : d.laser_brightness with _ | v
    · repeat' split
      all_goals simp_all [logMsg]
    · have hvle := hv v hlb
      repeat' split
      all_goals simp_all [logMsg, jsOrNat]
      all_goals first
      | omega
      | (split <;> omega)
  · exact updateDeviceStats_brightness_le s d hs hv

/-- Claim C6 counterexample: a heartbeat line carrying laser_brightness = 200
is stored unclamped — the resulting brightness is 200, outside [0,100]. -/
theorem brightness_not_clamped :
    (processReceivedData { initialCtrlState with brightnessInitialized := true }
      (InboundLine.json
        { type := some "heartbeat", laser_brightness := some 200 })).laserBrightness = 200
    ∧ ¬ ((processReceivedData { initialCtrlState with brightnessInitialized := true }
      (InboundLine.json
        { type := some "heartbeat",
          laser_brightness := some 200 })).laserBrightness ≤ 100) := by
  decide

/-- Claim C6 (amended): no operation clamps brightness — decoded values are
stored as they are — but the stored brightness stays within [0,100] across
any processed inbound line (structured or legacy) provided the current value
and every brightness value the line carries lie within [0,100]; the lower
bound is inherent since brightness is a natural number. -/
theorem brightness_range_conditional (s : CtrlState) (line : InboundLine)
    (hs : s.laserBrightness ≤ 100)
    (hvals : ∀ v ∈ lineBrightnessValues line, v ≤ 100) :
    (processReceivedData s line).laserBrightness ≤ 100 := by
  cases line with
  | json d =>
      refine processJson_brightness_le s d hs ?_
      intro v hv
      exact hvals v (by simp [lineBrightnessValues, hv])
  | text raw =>
      exact processLegacy_brightness_le s raw hs
        (fun v hmem => hvals v (by simpa [lineBrightnessValues] using hmem))

/-- Witness for C6 (amended): an in-range heartbeat value keeps the stored
brightness in range. -/
theorem brightness_range_conditional_witness :
    (processReceivedData initialCtrlState (InboundLine.json
      { type := some "heartbeat", laser_brightness := some 90 })).laserBrightness ≤ 100 :=
  brightness_range_conditional initialCtrlState
    (InboundLine.json { type := some "heartbeat", laser_brightness := some 90 })
    (by decide) (by decide)

end LaserCtrl
